import Mathlib

/-!
Verification of the conversational task-management backend.

Shallow embedding of the core: conversation manager (token truncation,
message storage, history retrieval), the five task tool handlers, the
agent orchestrator, and the chat turn controller.

Modelling conventions:
- machine time (datetime.utcnow) is an explicit `now : Nat` parameter;
- the relational store is a record of lists kept in insertion order,
  which coincides with ascending creation time (rows are only appended
  and timestamps are monotone), so `ORDER BY created_at DESC` is
  modelled by `List.reverse`;
- Python exceptions that a caller catches become `Except` values;
- the OpenAI completion client is an oracle function parameter;
- Python strings are sequences of code points, so `len` is
  `String.length` and `str.strip` / `str.replace` / `in` are modelled
  as structural recursions over `String.data` (`pystrip`,
  `replaceChar`, `List.contains`).
-/

namespace Todo

/-- Structured form of a tool call argument payload after `json.loads`.
The JSON text itself is marshaling; the embedding carries the parsed
fields that each handler receives via `**arguments`.  Optional fields
missing from the JSON object are `none` (the handler defaults apply). -/
inductive ToolArgs where
  | addTask (title : String) (description : Option String)
  | listTasks (filter : Option String) (limit : Option Int) (offset : Option Int)
  | completeTask (task_id : Int)
  | deleteTask (task_id : Int)
  | updateTask (task_id : Int) (title : Option String) (description : Option String)
      (completed : Option Bool)
deriving Repr, DecidableEq

/-- The opaque `arguments` string of a tool call: either it parses to a
structured payload or `json.loads` raises (modelled as `malformed`). -/
inductive ArgPayload where
  | parsed (args : ToolArgs)
  | malformed (errMsg : String)
deriving Repr, DecidableEq

/-- One tool call extracted from a completion choice:
`{id, name, arguments}` (orchestrator.process_message). -/
structure RawToolCall where
  id : String
  name : String
  arguments : ArgPayload
deriving Repr, DecidableEq

/-- A chat message dict `{"role": ..., "content": ...}`.  The synthetic
assistant entry built for the second completion round additionally
carries a `tool_calls` key; for ordinary messages it is `[]` (absent). -/
structure ChatMsg where
  role : String
  content : String
  tool_calls : List RawToolCall := []
deriving Repr, DecidableEq

/-- `ConversationManager.count_tokens`, in the deterministic fallback
branch (tiktoken is an external collaborator): about 4 characters per
token, integer division. -/
def count_tokens (text : String) : Nat := text.length / 4

/-- Sum of per-message token estimates for a message list
(`sum(self.count_tokens(msg["content"]) for msg in messages)`). -/
def sumTok (count : String → Nat) (l : List ChatMsg) : Nat :=
  (l.map (fun m => count m.content)).sum

/-- The truncation loop of `truncate_history_by_tokens`: iterate the
reversed (newest-first) list, keep a message while the accumulated count
stays within budget, and stop at the first overflow (`break`).  Returns
the kept messages newest-first; the caller restores chronological order. -/
def truncateLoop (count : String → Nat) (maxTokens : Nat) :
    List ChatMsg → Nat → List ChatMsg
  | [], _ => []
  | m :: rest, current =>
    if current + count m.content ≤ maxTokens then
      m :: truncateLoop count maxTokens rest (current + count m.content)
    else
      []

/-- `ConversationManager.truncate_history_by_tokens`: if the total
estimate fits the budget return the list unchanged, else walk from
newest to oldest keeping messages while they fit.  `count` stands for
the bound method `self.count_tokens`. -/
def truncate_history_by_tokens (count : String → Nat) (messages : List ChatMsg)
    (maxTokens : Nat) : List ChatMsg :=
  if sumTok count messages ≤ maxTokens then messages
  else (truncateLoop count maxTokens messages.reverse 0).reverse

lemma truncateLoop_decomp (count : String → Nat) (maxTokens : Nat) :
    ∀ (l : List ChatMsg) (cur : Nat),
      ∃ rest, l = truncateLoop count maxTokens l cur ++ rest ∧
        (rest = [] ∨ ∃ x rest', rest = x :: rest' ∧
          maxTokens < cur + sumTok count (truncateLoop count maxTokens l cur)
            + count x.content)
  | [], cur => ⟨[], by simp [truncateLoop]⟩
  | m :: t, cur => by
    by_cases h : cur + count m.content ≤ maxTokens
    · obtain ⟨rest, hrest, hover⟩ :=
        truncateLoop_decomp count maxTokens t (cur + count m.content)
      refine ⟨rest, ?_, ?_⟩
      · simp only [truncateLoop, if_pos h]
        rw [List.cons_append, ← hrest]
      · rcases hover with h0 | ⟨x, rest', hr, hb⟩
        · exact Or.inl h0
        · refine Or.inr ⟨x, rest', hr, ?_⟩
          simp only [truncateLoop, if_pos h, sumTok, List.map_cons, List.sum_cons]
          simp only [sumTok] at hb
          omega
    · refine ⟨m :: t, by simp [truncateLoop, if_neg h], ?_⟩
      refine Or.inr ⟨m, t, rfl, ?_⟩
      simp only [truncateLoop, if_neg h, sumTok, List.map_nil, List.sum_nil]
      omega

lemma truncateLoop_sum_le (count : String → Nat) (maxTokens : Nat) :
    ∀ (l : List ChatMsg) (cur : Nat), cur ≤ maxTokens →
      cur + sumTok count (truncateLoop count maxTokens l cur) ≤ maxTokens
  | [], cur, h => by simpa [truncateLoop, sumTok] using h
  | m :: t, cur, h => by
    by_cases hc : cur + count m.content ≤ maxTokens
    · have := truncateLoop_sum_le count maxTokens t (cur + count m.content) hc
      simp only [truncateLoop, if_pos hc, sumTok, List.map_cons, List.sum_cons]
      simp only [sumTok] at this
      omega
    · simpa [truncateLoop, if_neg hc, sumTok] using h

lemma sumTok_reverse (count : String → Nat) (l : List ChatMsg) :
    sumTok count l.reverse = sumTok count l := by
  simp [sumTok, List.map_reverse, List.sum_reverse]

lemma mem_of_getLast?_eq {α : Type} {l : List α} {a : α} (h : l.getLast? = some a) :
    a ∈ l := by
  have hh : l.reverse.head? = some a := by rw [List.head?_reverse]; exact h
  have hm : a ∈ l.reverse := by
    cases hr : l.reverse with
    | nil => rw [hr] at hh; simp at hh
    | cons b t =>
      rw [hr] at hh; simp at hh
      rw [← hh]; exact List.mem_cons_self _ _
  exact List.mem_reverse.mp hm

lemma mem_le_sumTok (count : String → Nat) {m : ChatMsg} {l : List ChatMsg}
    (h : m ∈ l) : count m.content ≤ sumTok count l := by
  induction l with
  | nil => simp at h
  | cons a t ih =>
    rcases List.mem_cons.mp h with rfl | hm
    · simp [sumTok]
    · have := ih hm
      simp only [sumTok, List.map_cons, List.sum_cons]
      simp only [sumTok] at this
      omega

lemma truncate_history_fits (count : String → Nat) (l : List ChatMsg) (B : Nat)
    (h : sumTok count l ≤ B) : truncate_history_by_tokens count l B = l := by
  simp [truncate_history_by_tokens, h]

lemma truncate_history_suffix (count : String → Nat) (l : List ChatMsg) (B : Nat) :
    ∃ dropped, l = dropped ++ truncate_history_by_tokens count l B := by
  by_cases htot : sumTok count l ≤ B
  · exact ⟨[], by simp [truncate_history_by_tokens, htot]⟩
  · obtain ⟨rest, hrest, -⟩ := truncateLoop_decomp count B l.reverse 0
    have hres : truncate_history_by_tokens count l B
        = (truncateLoop count B l.reverse 0).reverse := by
      simp [truncate_history_by_tokens, htot]
    refine ⟨rest.reverse, ?_⟩
    rw [hres]
    calc l = l.reverse.reverse := (List.reverse_reverse l).symm
      _ = (truncateLoop count B l.reverse 0 ++ rest).reverse := by rw [← hrest]
      _ = rest.reverse ++ (truncateLoop count B l.reverse 0).reverse := by
            rw [List.reverse_append]

lemma truncate_history_sum_le (count : String → Nat) (l : List ChatMsg) (B : Nat) :
    sumTok count (truncate_history_by_tokens count l B) ≤ B := by
  by_cases htot : sumTok count l ≤ B
  · rw [truncate_history_fits count l B htot]
    exact htot
  · have hres : truncate_history_by_tokens count l B
        = (truncateLoop count B l.reverse 0).reverse := by
      simp [truncate_history_by_tokens, htot]
    rw [hres, sumTok_reverse]
    simpa using truncateLoop_sum_le count B l.reverse 0 (Nat.zero_le B)

/-- C1.  Token-budget truncation is a contiguous-suffix algorithm: the
result is the unchanged list when the summed estimates fit the budget;
in every case it is a contiguous tail of the input whose summed
estimates are at most the budget, the message just older than the kept
tail (when one was dropped) would overflow the budget, and the newest
message is retained unless its own estimate alone exceeds the budget,
in which case the result is empty. -/
theorem truncate_history_contiguous_suffix (count : String → Nat)
    (messages : List ChatMsg) (B : Nat) :
    (sumTok count messages ≤ B → truncate_history_by_tokens count messages B = messages)
    ∧ sumTok count (truncate_history_by_tokens count messages B) ≤ B
    ∧ (∃ dropped, messages = dropped ++ truncate_history_by_tokens count messages B
        ∧ ∀ x, dropped.getLast? = some x →
            B < count x.content + sumTok count (truncate_history_by_tokens count messages B))
    ∧ ∀ last, messages.getLast? = some last →
        (count last.content ≤ B →
          (truncate_history_by_tokens count messages B).getLast? = some last)
        ∧ (B < count last.content → truncate_history_by_tokens count messages B = []) := by
  by_cases htot : sumTok count messages ≤ B
  · refine ⟨fun _ => by simp [truncate_history_by_tokens, htot], ?_, ?_, ?_⟩
    · simp only [truncate_history_by_tokens, if_pos htot]; exact htot
    · exact ⟨[], by simp [truncate_history_by_tokens, htot], by simp⟩
    · intro last hlast
      have hmem : last ∈ messages := mem_of_getLast?_eq hlast
      have hle : count last.content ≤ sumTok count messages := mem_le_sumTok count hmem
      refine ⟨fun _ => by rw [show truncate_history_by_tokens count messages B = messages
        from by simp [truncate_history_by_tokens, htot]]; exact hlast, fun hgt => ?_⟩
      omega
  · obtain ⟨rest, hrest, hover⟩ := truncateLoop_decomp count B messages.reverse 0
    have hres : truncate_history_by_tokens count messages B
        = (truncateLoop count B messages.reverse 0).reverse := by
      simp [truncate_history_by_tokens, htot]
    have hsum : sumTok count (truncate_history_by_tokens count messages B) ≤ B := by
      rw [hres, sumTok_reverse]
      simpa using truncateLoop_sum_le count B messages.reverse 0 (Nat.zero_le B)
    have hsplit : messages = rest.reverse ++ truncate_history_by_tokens count messages B := by
      rw [hres]
      calc messages = messages.reverse.reverse := (List.reverse_reverse messages).symm
        _ = (truncateLoop count B messages.reverse 0 ++ rest).reverse := by rw [← hrest]
        _ = rest.reverse ++ (truncateLoop count B messages.reverse 0).reverse := by
              rw [List.reverse_append]
    refine ⟨fun h => absurd h htot, hsum, ⟨rest.reverse, hsplit, ?_⟩, ?_⟩
    · intro x hx
      rcases hover with rfl | ⟨y, rest', rfl, hb⟩
      · simp at hx
      · have : (y :: rest').reverse.getLast? = some y := by
          rw [List.reverse_cons, List.getLast?_concat]
        rw [this] at hx
        cases hx
        rw [hres, sumTok_reverse]
        omega
    · intro last hlast
      have hne : messages ≠ [] := by
        intro h; rw [h] at hlast; simp at hlast
      have hhead : messages.reverse.head? = some last := by
        rw [List.head?_reverse]; exact hlast
      obtain ⟨tl, htl⟩ : ∃ tl, messages.reverse = last :: tl := by
        cases hr : messages.reverse with
        | nil => rw [hr] at hhead; simp at hhead
        | cons a t =>
          rw [hr] at hhead; simp at hhead
          exact ⟨t, by rw [hhead]⟩
      constructor
      · intro hle
        have hc : 0 + count last.content ≤ B := by omega
        rw [hres, htl]
        simp only [truncateLoop, if_pos hc]
        rw [List.reverse_cons, List.getLast?_concat]
      · intro hgt
        have hc : ¬ 0 + count last.content ≤ B := by omega
        rw [hres, htl]
        simp only [truncateLoop]
        rw [if_neg hc]
        exact List.reverse_nil

/-- Instantiation of the truncation theorem on a concrete history: two
messages of 8 and 4 characters (2 and 1 token estimates) with budget 1
keep exactly the newest message. -/
theorem truncate_history_contiguous_suffix_witness :
    (truncate_history_by_tokens count_tokens
      [⟨"user", "aaaaaaaa", []⟩, ⟨"assistant", "bbbb", []⟩] 1).getLast?
      = some ⟨"assistant", "bbbb", []⟩ :=
  ((truncate_history_contiguous_suffix count_tokens
      [⟨"user", "aaaaaaaa", []⟩, ⟨"assistant", "bbbb", []⟩] 1).2.2.2
      ⟨"assistant", "bbbb", []⟩ (by decide)).1 (by decide)

/-! ## Conversation manager: persistence model -/

/-- A row of the conversations table. -/
structure Conversation where
  id : Nat
  user_id : String
  created_at : Nat
  updated_at : Nat
deriving Repr, DecidableEq

/-- A row of the messages table (the surrogate id plays no role in the
embedded operations and is omitted). -/
structure Message where
  conversation_id : Nat
  user_id : String
  role : String
  content : String
  created_at : Nat
deriving Repr, DecidableEq

/-- The conversation store.  `messages` is the append-only message log in
insertion order, which is ascending `created_at` order. -/
structure ConvDB where
  conversations : List Conversation
  messages : List Message
  next_conversation_id : Nat
deriving Repr, DecidableEq

/-- The `ValueError`s the conversation manager raises, by site. -/
inductive ConvErr where
  | notFound (conversation_id : Nat)
  | unauthorized (conversation_id : Nat)
  | invalidRole (role : String)
  | invalidContent
deriving Repr, DecidableEq

def max_history_messages : Nat := 20
def max_context_tokens : Nat := 4000

/-- `ConversationManager.create_conversation`: insert a new conversation
row owned by the user; both timestamps are the current time. -/
def create_conversation (db : ConvDB) (user_id : String) (now : Nat) :
    Conversation × ConvDB :=
  let c : Conversation := ⟨db.next_conversation_id, user_id, now, now⟩
  (c, ⟨db.conversations ++ [c], db.messages, db.next_conversation_id + 1⟩)

/-- `ConversationManager.get_conversation`: primary-key lookup plus
ownership check. -/
def get_conversation (db : ConvDB) (conversation_id : Nat) (user_id : String) :
    Except ConvErr Conversation :=
  match db.conversations.find? (fun c => c.id == conversation_id) with
  | none => .error (.notFound conversation_id)
  | some conv =>
    if conv.user_id ≠ user_id then .error (.unauthorized conversation_id)
    else .ok conv

/-- `ConversationManager.store_message`: validate conversation existence
and ownership, the role and the content length, then append the message
and bump the conversation `updated_at`, committing once (the returned
store is the single transaction result; an error leaves the store as it
was, since the code raises before any `session.add`). -/
def store_message (db : ConvDB) (conversation_id : Nat)
    (user_id role content : String) (now : Nat) :
    Except ConvErr (Message × ConvDB) :=
  match db.conversations.find? (fun c => c.id == conversation_id) with
  | none => .error (.notFound conversation_id)
  | some conv =>
    if conv.user_id ≠ user_id then .error (.unauthorized conversation_id)
    else if ¬ (role = "user" ∨ role = "assistant") then .error (.invalidRole role)
    else if content = "" ∨ content.length > 10000 then .error .invalidContent
    else
      let message : Message := ⟨conversation_id, user_id, role, content, now⟩
      .ok (message,
        ⟨db.conversations.map
            (fun c => if c.id == conversation_id then {c with updated_at := now} else c),
          db.messages ++ [message], db.next_conversation_id⟩)

/-- `ConversationManager.get_conversation_history`: ownership-checked
fetch of the most recent `limit` messages (`ORDER BY created_at DESC
LIMIT limit`, modelled as take-from-the-reversed-log), reversed back to
chronological order, formatted as role/content dicts, then passed
through token-budget truncation.  A `limit` of 0 falls back to the
default 20 (`limit = limit or self.max_history_messages`). -/
def get_conversation_history (db : ConvDB) (conversation_id : Nat)
    (user_id : String) (limit : Nat := 0) : Except ConvErr (List ChatMsg) :=
  match db.conversations.find? (fun c => c.id == conversation_id) with
  | none => .error (.notFound conversation_id)
  | some conv =>
    if conv.user_id ≠ user_id then .error (.unauthorized conversation_id)
    else
      let limit := if limit = 0 then max_history_messages else limit
      let msgs := db.messages.filter (fun m => m.conversation_id == conversation_id)
      let recent := (msgs.reverse.take limit).reverse
      let formatted := recent.map (fun m => (⟨m.role, m.content, []⟩ : ChatMsg))
      .ok (truncate_history_by_tokens count_tokens formatted max_context_tokens)

/-- C6.  `store_message` fails exactly when the conversation is missing,
owned by another user, the role is not `user`/`assistant`, or the
content is empty or over 10000 characters; an error returns no new
store (the code raises before any write, so nothing is persisted).  On
success exactly one message is appended, the conversation `updated_at`
is set to the current time, and nothing else changes — all in the one
returned (atomically committed) store. -/
theorem store_message_validated_append (db : ConvDB) (cid : Nat)
    (uid role content : String) (now : Nat) :
    ((∃ e, store_message db cid uid role content now = .error e) ↔
      (db.conversations.find? (fun c => c.id == cid) = none
        ∨ (∃ conv, db.conversations.find? (fun c => c.id == cid) = some conv
            ∧ conv.user_id ≠ uid)
        ∨ ¬ (role = "user" ∨ role = "assistant")
        ∨ content = "" ∨ content.length > 10000))
    ∧ ∀ m db', store_message db cid uid role content now = .ok (m, db') →
        db'.messages = db.messages ++ [m]
        ∧ m = ⟨cid, uid, role, content, now⟩
        ∧ (role = "user" ∨ role = "assistant")
        ∧ content ≠ "" ∧ content.length ≤ 10000
        ∧ (∃ conv, db.conversations.find? (fun c => c.id == cid) = some conv
            ∧ conv.user_id = uid)
        ∧ db'.conversations = db.conversations.map
            (fun c => if c.id == cid then {c with updated_at := now} else c)
        ∧ db'.next_conversation_id = db.next_conversation_id := by
  cases hfind : db.conversations.find? (fun c => c.id == cid) with
  | none =>
    constructor
    · constructor
      · intro _; exact Or.inl rfl
      · intro _; exact ⟨.notFound cid, by simp [store_message, hfind]⟩
    · intro m db' h
      simp [store_message, hfind] at h
  | some conv =>
    by_cases howner : conv.user_id ≠ uid
    · constructor
      · constructor
        · intro _; exact Or.inr (Or.inl ⟨conv, rfl, howner⟩)
        · intro _; exact ⟨.unauthorized cid, by simp [store_message, hfind, howner]⟩
      · intro m db' h
        simp [store_message, hfind, howner] at h
    · by_cases hrole : role = "user" ∨ role = "assistant"
      · by_cases hcontent : content = "" ∨ content.length > 10000
        · constructor
          · constructor
            · intro _; exact Or.inr (Or.inr (Or.inr (by tauto)))
            · intro _
              exact ⟨.invalidContent, by simp [store_message, hfind, howner, hrole, hcontent]⟩
          · intro m db' h
            simp [store_message, hfind, howner, hrole, hcontent] at h
        · constructor
          · constructor
            · intro ⟨e, he⟩
              simp [store_message, hfind, howner, hrole, hcontent] at he
            · intro h
              rcases h with h | ⟨c, hc, hu⟩ | h | h | h
              · simp [hfind] at h
              · injection hc with hcc; subst hcc; exact absurd hu howner
              · exact absurd hrole h
              · exact absurd (Or.inl h) hcontent
              · exact absurd (Or.inr h) hcontent
          · intro m db' h
            simp only [store_message, hfind, if_neg howner, if_neg (not_not.mpr hrole),
              if_neg hcontent, Except.ok.injEq, Prod.mk.injEq] at h
            obtain ⟨hm, hdb⟩ := h
            subst hm; subst hdb
            refine ⟨rfl, rfl, hrole, ?_, ?_, ⟨conv, rfl, not_not.mp howner⟩, rfl, rfl⟩
            · intro hc; exact hcontent (Or.inl hc)
            · omega
      · constructor
        · constructor
          · intro _; exact Or.inr (Or.inr (Or.inl hrole))
          · intro _
            exact ⟨.invalidRole role, by simp [store_message, hfind, howner, hrole]⟩
        · intro m db' h
          simp [store_message, hfind, howner, hrole] at h

/-- Instantiation of the `store_message` theorem: storing "Hi" in a
freshly created conversation appends exactly that one message. -/
theorem store_message_validated_append_witness :
    (⟨[⟨1, "u", 0, 5⟩], [⟨1, "u", "user", "Hi", 5⟩], 2⟩ : ConvDB).messages
      = (⟨[⟨1, "u", 0, 0⟩], [], 2⟩ : ConvDB).messages ++ [⟨1, "u", "user", "Hi", 5⟩] :=
  ((store_message_validated_append ⟨[⟨1, "u", 0, 0⟩], [], 2⟩ 1 "u" "user" "Hi" 5).2
    ⟨1, "u", "user", "Hi", 5⟩ ⟨[⟨1, "u", 0, 5⟩], [⟨1, "u", "user", "Hi", 5⟩], 2⟩ rfl).1

/-- A 10000-character message content (the maximum `store_message`
accepts), estimated at 2500 tokens. -/
def longContent : String := String.mk (List.replicate 10000 'a')

/-- C5 counterexample.  A conversation with N = 2 stored messages, each
of 10000 characters: `get_conversation_history` with the default limit
returns only 1 message, not min(N, limit) = 2, because token-budget
truncation (budget 4000, estimates 2500 each) drops the older one. -/
lemma length_longContent : longContent.length = 10000 := by
  rw [longContent, String.length_mk, List.length_replicate]

lemma count_tokens_longContent : count_tokens longContent = 2500 := by
  show longContent.length / 4 = 2500
  rw [length_longContent]

theorem get_history_count_counterexample :
    ((get_conversation_history
        ⟨[⟨1, "u", 0, 0⟩],
          [⟨1, "u", "user", longContent, 1⟩, ⟨1, "u", "assistant", longContent, 2⟩],
          2⟩ 1 "u").map List.length = .ok 1)
    ∧ min 2 max_history_messages ≠ 1 := by
  refine ⟨?_, by decide⟩
  have hrec : get_conversation_history
      ⟨[⟨1, "u", 0, 0⟩],
        [⟨1, "u", "user", longContent, 1⟩, ⟨1, "u", "assistant", longContent, 2⟩], 2⟩
      1 "u" = .ok (truncate_history_by_tokens count_tokens
        [⟨"user", longContent, []⟩, ⟨"assistant", longContent, []⟩] 4000) := rfl
  have hcA : count_tokens (ChatMsg.content ⟨"assistant", longContent, []⟩) = 2500 :=
    count_tokens_longContent
  have hcU : count_tokens (ChatMsg.content ⟨"user", longContent, []⟩) = 2500 :=
    count_tokens_longContent
  have hsum : sumTok count_tokens
      [⟨"user", longContent, []⟩, ⟨"assistant", longContent, []⟩] = 5000 := by
    simp only [sumTok, List.map_cons, List.map_nil, List.sum_cons, List.sum_nil, hcA, hcU]
    decide
  have htr : truncate_history_by_tokens count_tokens
      [⟨"user", longContent, []⟩, ⟨"assistant", longContent, []⟩] 4000
      = [⟨"assistant", longContent, []⟩] := by
    rw [truncate_history_by_tokens, if_neg (by rw [hsum]; decide)]
    show (truncateLoop count_tokens 4000
      [⟨"assistant", longContent, []⟩, ⟨"user", longContent, []⟩] 0).reverse = _
    rw [truncateLoop, if_pos (by simp only [hcA]; decide),
      truncateLoop, if_neg (by simp only [hcA, hcU]; decide)]
    rfl
  rw [hrec, htr]
  rfl

/-- C5 as amended.  `get_conversation_history` selects the most recent
min(N, limit) messages for the owner (`sel`), restores chronological
order, formats them as role/content pairs, and then applies
token-budget truncation: whenever the summed token estimates of `sel`
fit the 4000-token budget, the result is exactly `sel` — the most
recent min(N, limit) messages in oldest-first order — and in every
case the returned list is a contiguous tail of `sel` whose summed
token estimates fit the budget. -/
theorem get_conversation_history_amended (db : ConvDB) (cid : Nat) (uid : String)
    (limit : Nat) (conv : Conversation) (sel : List ChatMsg)
    (hfind : db.conversations.find? (fun c => c.id == cid) = some conv)
    (howner : conv.user_id = uid)
    (hsel : sel = ((db.messages.filter (fun m => m.conversation_id == cid)).reverse.take
        (if limit = 0 then max_history_messages else limit)).reverse.map
        (fun m => (⟨m.role, m.content, []⟩ : ChatMsg))) :
    (sumTok count_tokens sel ≤ max_context_tokens →
      get_conversation_history db cid uid limit = .ok sel
      ∧ sel.length = min (db.messages.filter (fun m => m.conversation_id == cid)).length
          (if limit = 0 then max_history_messages else limit))
    ∧ ∀ l, get_conversation_history db cid uid limit = .ok l →
        (∃ dropped, sel = dropped ++ l)
        ∧ sumTok count_tokens l ≤ max_context_tokens := by
  have hmain : get_conversation_history db cid uid limit
      = .ok (truncate_history_by_tokens count_tokens sel max_context_tokens) := by
    simp only [get_conversation_history, hfind, howner, ne_eq, not_true_eq_false,
      if_false, Except.ok.injEq]
    rw [hsel]
  constructor
  · intro hfit
    constructor
    · rw [hmain, truncate_history_fits count_tokens sel max_context_tokens hfit]
    · rw [hsel]
      simp [List.length_take, Nat.min_comm]
  · intro l hl
    rw [hmain] at hl
    injection hl with hl
    subst hl
    exact ⟨truncate_history_suffix count_tokens sel max_context_tokens,
      truncate_history_sum_le count_tokens sel max_context_tokens⟩

/-- Instantiation of the amended history theorem on a two-message
conversation that fits the token budget. -/
theorem get_conversation_history_amended_witness :
    get_conversation_history
        ⟨[⟨1, "u", 0, 0⟩],
          [⟨1, "u", "user", "Hi", 1⟩, ⟨1, "u", "assistant", "Hello!", 2⟩], 2⟩ 1 "u"
      = .ok [⟨"user", "Hi", []⟩, ⟨"assistant", "Hello!", []⟩] :=
  ((get_conversation_history_amended
      ⟨[⟨1, "u", 0, 0⟩],
        [⟨1, "u", "user", "Hi", 1⟩, ⟨1, "u", "assistant", "Hello!", 2⟩], 2⟩
      1 "u" 0 ⟨1, "u", 0, 0⟩ [⟨"user", "Hi", []⟩, ⟨"assistant", "Hello!", []⟩]
      rfl rfl rfl).1 (by decide)).1

/-! ## Task model and the five MCP tool handlers -/

/-- Modelled from the spec: the Task record (app/models/task.py is not
among the repository files; only its importers are).  Per the spec data
model: identity, owning user id, title, optional description,
completion flag (default false), created/updated timestamps. -/
structure Task where
  id : Int
  user_id : String
  title : String
  description : Option String
  completed : Bool
  created_at : Nat
  updated_at : Nat
deriving Repr, DecidableEq

/-- The tasks table, in insertion order (ascending `created_at`), with
the autoincrement counter for the surrogate primary key. -/
structure TaskDB where
  tasks : List Task
  next_task_id : Int
deriving Repr, DecidableEq

/-- The result dict of a tool handler: a success payload or
`{"success": false, "error": ..., "message": ...}`. -/
inductive ToolResult where
  | okTask (task : Task)
  | okList (tasks : List Task) (total : Nat) (has_more : Bool)
  | okDeleted (deleted_task_id : Int) (message : String)
  | err (error : String) (message : String)
deriving Repr, DecidableEq

def nullByte : Char := Char.ofNat 0

/-- Python `text.replace(old, new)` for a one-character `old` (every
`replace` in the source uses a one-character pattern): substitute each
occurrence by the replacement, left to right.  Strings are sequences of
code points in Python, so the embedding works on the character list. -/
def replaceChar (pattern : Char) (replacement : List Char) : List Char → List Char
  | [] => []
  | c :: cs =>
    if c == pattern then replacement ++ replaceChar pattern replacement cs
    else c :: replaceChar pattern replacement cs

/-- Python `str.strip()` with no arguments: drop whitespace from both
ends (`Char.isWhitespace` models the whitespace class). -/
def trimChars (l : List Char) : List Char :=
  ((l.dropWhile Char.isWhitespace).reverse.dropWhile Char.isWhitespace).reverse

/-- `str.strip()` at the String interface. -/
def pystrip (s : String) : String := String.mk (trimChars s.data)

namespace error_handler

/-- `app.middleware.error_handler.sanitize_input` (used by add_task):
strip null bytes, then HTML-escape the five special characters, one
full replacement pass each, in source order. -/
def sanitize_input (text : String) : String :=
  let cs := replaceChar nullByte [] text.data
  let cs := replaceChar '&' ['&', 'a', 'm', 'p', ';'] cs
  let cs := replaceChar '<' ['&', 'l', 't', ';'] cs
  let cs := replaceChar '>' ['&', 'g', 't', ';'] cs
  let cs := replaceChar '\x22' ['&', 'q', 'u', 'o', 't', ';'] cs
  let cs := replaceChar '\x27' ['&', '#', 'x', '2', '7', ';'] cs
  String.mk cs

end error_handler

namespace update_task

/-- The local `sanitize_input` of app.mcp.tools.update_task: remove
null bytes and strip surrounding whitespace; no HTML escaping. -/
def sanitize_input (text : String) : String :=
  if text = "" then text
  else String.mk (trimChars (replaceChar nullByte [] text.data))

end update_task

/-- `validate_task_id` (complete_task / delete_task): a task id below 1
is rejected.  The `isinstance(task_id, int)` check is carried by the
`Int` type. -/
def validate_task_id (task_id : Int) : Bool × Option String :=
  if task_id < 1 then (false, some "task_id must be a positive integer")
  else (true, none)

/-- Title checks of `validate_update_params`. -/
def checkTitleOpt : Option String → Option String
  | none => none
  | some t =>
    if t = "" ∨ pystrip t = "" then some "Title must not be empty or whitespace-only"
    else if t.length > 200 then some "Title must be between 1 and 200 characters"
    else if t.data.contains nullByte then some "Title contains invalid characters"
    else none

/-- Description checks of `validate_update_params`. -/
def checkDescriptionOpt : Option String → Option String
  | none => none
  | some d =>
    if d.length > 1000 then some "Description must be 1000 characters or less"
    else if d.data.contains nullByte then some "Description contains invalid characters"
    else none

/-- `validate_update_params` (update_task): positive task id, at least
one field provided, then the per-field checks in order.  The
`isinstance(completed, bool)` check is carried by the type. -/
def validate_update_params (task_id : Int) (title description : Option String)
    (completed : Option Bool) : Bool × Option String :=
  if task_id < 1 then (false, some "task_id must be a positive integer")
  else if title = none ∧ description = none ∧ completed = none then
    (false, some "At least one of title, description, or completed must be provided")
  else match checkTitleOpt title with
  | some e => (false, some e)
  | none =>
    match checkDescriptionOpt description with
    | some e => (false, some e)
    | none => (true, none)

/-- `validate_list_params` (list_tasks). -/
def validate_list_params (filter : String) (limit offset : Int) : Bool × Option String :=
  if filter ≠ "all" ∧ filter ≠ "pending" ∧ filter ≠ "completed" then
    (false, some "Filter must be one of: all, pending, completed")
  else if limit < 1 ∨ limit > 200 then
    (false, some "Limit must be an integer between 1 and 200")
  else if offset < 0 then
    (false, some "Offset must be a non-negative integer")
  else (true, none)

/-- The isolation query of complete/delete/update:
`SELECT ... WHERE id == task_id AND user_id == user_id`, of which the
handlers take `.first()`. -/
def taskQuery (task_id : Int) (user_id : String) : Task → Bool :=
  fun t => t.id == task_id && t.user_id == user_id

/-- An ORM row update: mutate the (unique) selected row in place,
leaving every other row and the row order unchanged. -/
def replaceFirstTask (p : Task → Bool) (f : Task → Task) : List Task → List Task
  | [] => []
  | t :: ts => if p t then f t :: ts else t :: replaceFirstTask p f ts

/-- An ORM row delete: remove the (unique) selected row. -/
def removeFirstTask (p : Task → Bool) : List Task → List Task
  | [] => []
  | t :: ts => if p t then ts else t :: removeFirstTask p ts

/-- `complete_task_handler`: validate the id, load the task filtered by
id AND owner, return NotFoundError when no row matches, else set
`completed := true`, bump `updated_at` and return the updated task. -/
def complete_task_handler (db : TaskDB) (now : Nat) (user_id : String)
    (task_id : Int) : ToolResult × TaskDB :=
  match validate_task_id task_id with
  | (false, msg) => (.err "ValidationError" (msg.getD ""), db)
  | (true, _) =>
    match db.tasks.find? (taskQuery task_id user_id) with
    | none => (.err "NotFoundError" "Task not found or does not belong to user", db)
    | some t =>
      (.okTask {t with completed := true, updated_at := now},
        ⟨replaceFirstTask (taskQuery task_id user_id)
            (fun u => {u with completed := true, updated_at := now}) db.tasks,
          db.next_task_id⟩)

/-- `delete_task_handler`: validate the id, load the task filtered by
id AND owner, return NotFoundError when no row matches, else hard-delete
the row. -/
def delete_task_handler (db : TaskDB) (user_id : String)
    (task_id : Int) : ToolResult × TaskDB :=
  match validate_task_id task_id with
  | (false, msg) => (.err "ValidationError" (msg.getD ""), db)
  | (true, _) =>
    match db.tasks.find? (taskQuery task_id user_id) with
    | none => (.err "NotFoundError" "Task not found or does not belong to user", db)
    | some _ =>
      (.okDeleted task_id "Task deleted successfully",
        ⟨removeFirstTask (taskQuery task_id user_id) db.tasks, db.next_task_id⟩)

/-- The field update block of `update_task_handler`: set each provided
field, then always bump `updated_at`. -/
def applyTaskUpdate (title description : Option String) (completed : Option Bool)
    (now : Nat) (u : Task) : Task :=
  let u := match title with | some v => {u with title := v} | none => u
  let u := match description with | some v => {u with description := some v} | none => u
  let u := match completed with | some v => {u with completed := v} | none => u
  {u with updated_at := now}

/-- `update_task_handler`: validate the parameters, sanitize the
provided text fields (null-byte strip and whitespace trim only), load
the task filtered by id AND owner, return NotFoundError when no row
matches, else update exactly the provided fields and bump `updated_at`. -/
def update_task_handler (db : TaskDB) (now : Nat) (user_id : String)
    (task_id : Int) (title description : Option String) (completed : Option Bool) :
    ToolResult × TaskDB :=
  match validate_update_params task_id title description completed with
  | (false, msg) => (.err "ValidationError" (msg.getD ""), db)
  | (true, _) =>
    let title := title.map update_task.sanitize_input
    let description := description.map update_task.sanitize_input
    match db.tasks.find? (taskQuery task_id user_id) with
    | none => (.err "NotFoundError" "Task not found or does not belong to user", db)
    | some t =>
      (.okTask (applyTaskUpdate title description completed now t),
        ⟨replaceFirstTask (taskQuery task_id user_id)
            (applyTaskUpdate title description completed now) db.tasks,
          db.next_task_id⟩)

/-- The description branch of `add_task_handler`: a falsy (absent or
empty) description becomes NULL; otherwise strip, bound-check,
null-byte-check, and HTML-escape it. -/
def addTaskDescription : Option String → Except String (Option String)
  | none => .ok none
  | some d =>
    if d = "" then .ok none
    else
      let d := pystrip d
      if d.length > 1000 then .error "Description must be 1000 characters or less"
      else if d.data.contains nullByte then .error "Description contains invalid characters"
      else .ok (some (error_handler.sanitize_input d))

/-- `add_task_handler`: trim and validate the title (non-empty, at most
200 characters, no null byte) before HTML-escaping, process the
description, then insert the new row with `completed := false`. -/
def add_task_handler (db : TaskDB) (now : Nat) (user_id : String)
    (title : String) (description : Option String) : ToolResult × TaskDB :=
  if title = "" ∨ pystrip title = "" then
    (.err "ValidationError" "Title must not be empty", db)
  else
    let title := pystrip title
    if title.length > 200 then
      (.err "ValidationError" "Title must be between 1 and 200 characters", db)
    else if title.data.contains nullByte then
      (.err "ValidationError" "Title contains invalid characters", db)
    else
      match addTaskDescription description with
      | .error msg => (.err "ValidationError" msg, db)
      | .ok desc =>
        let title := error_handler.sanitize_input title
        let t : Task := ⟨db.next_task_id, user_id, title, desc, false, now, now⟩
        (.okTask t, ⟨db.tasks ++ [t], db.next_task_id + 1⟩)

/-- `list_tasks_handler`: validate, filter by owner and completion
status, count the total before pagination, order newest-first, apply
offset/limit, and report `has_more`. -/
def list_tasks_handler (db : TaskDB) (user_id : String)
    (filter : String := "all") (limit : Int := 50) (offset : Int := 0) : ToolResult :=
  match validate_list_params filter limit offset with
  | (false, msg) => .err "ValidationError" (msg.getD "")
  | (true, _) =>
    let base := db.tasks.filter (fun t => t.user_id == user_id)
    let filtered :=
      if filter = "pending" then base.filter (fun t => !t.completed)
      else if filter = "completed" then base.filter (fun t => t.completed)
      else base
    let total := filtered.length
    let page := (filtered.reverse.drop offset.toNat).take limit.toNat
    .okList page total (offset.toNat + page.length < total)

/-! ## Helper lemmas about the row lookup and update -/

lemma find?_eq_some_decomp {α : Type} (p : α → Bool) {l : List α} {t : α}
    (h : l.find? p = some t) :
    ∃ l₁ l₂, l = l₁ ++ t :: l₂ ∧ (∀ x ∈ l₁, p x = false) ∧ p t = true := by
  induction l with
  | nil => simp [List.find?] at h
  | cons a ts ih =>
    by_cases hp : p a
    · rw [List.find?_cons_of_pos _ hp] at h
      cases h
      exact ⟨[], ts, rfl, by intro x hx; simp at hx, hp⟩
    · rw [List.find?_cons_of_neg _ (by simpa using hp)] at h
      obtain ⟨l₁, l₂, hl, hfail, hpt⟩ := ih h
      refine ⟨a :: l₁, l₂, by rw [hl, List.cons_append], ?_, hpt⟩
      intro x hx
      rcases List.mem_cons.mp hx with rfl | hx'
      · simpa using hp
      · exact hfail x hx'

lemma find?_append_cons {α : Type} (p : α → Bool) (l₁ l₂ : List α) (t : α)
    (hfail : ∀ x ∈ l₁, p x = false) (hp : p t = true) :
    (l₁ ++ t :: l₂).find? p = some t := by
  induction l₁ with
  | nil => simp [List.find?_cons_of_pos _ hp]
  | cons a ts ih =>
    rw [List.cons_append, List.find?_cons_of_neg _ (by simp [hfail a (by simp)])]
    exact ih (fun x hx => hfail x (by simp [hx]))

lemma replaceFirstTask_append (p : Task → Bool) (f : Task → Task)
    (l₁ l₂ : List Task) (t : Task)
    (hfail : ∀ x ∈ l₁, p x = false) (hp : p t = true) :
    replaceFirstTask p f (l₁ ++ t :: l₂) = l₁ ++ f t :: l₂ := by
  induction l₁ with
  | nil => simp [replaceFirstTask, hp]
  | cons a ts ih =>
    rw [List.cons_append, replaceFirstTask, if_neg (by simp [hfail a (by simp)])]
    rw [ih (fun x hx => hfail x (by simp [hx])), List.cons_append]

lemma removeFirstTask_append (p : Task → Bool)
    (l₁ l₂ : List Task) (t : Task)
    (hfail : ∀ x ∈ l₁, p x = false) (hp : p t = true) :
    removeFirstTask p (l₁ ++ t :: l₂) = l₁ ++ l₂ := by
  induction l₁ with
  | nil => simp [removeFirstTask, hp]
  | cons a ts ih =>
    rw [List.cons_append, removeFirstTask, if_neg (by simp [hfail a (by simp)])]
    rw [ih (fun x hx => hfail x (by simp [hx])), List.cons_append]

lemma eq_of_mem_unique_id {l : List Task}
    (huniq : l.Pairwise (fun a b => a.id ≠ b.id)) {x t : Task}
    (hx : x ∈ l) (ht : t ∈ l) (h : x.id = t.id) : x = t := by
  induction l with
  | nil => simp at hx
  | cons a ts ih =>
    rw [List.pairwise_cons] at huniq
    obtain ⟨ha, hts⟩ := huniq
    rcases List.mem_cons.mp hx with rfl | hx'
    · rcases List.mem_cons.mp ht with rfl | ht'
      · rfl
      · exact absurd h (ha t ht')
    · rcases List.mem_cons.mp ht with rfl | ht'
      · exact absurd h.symm (ha x hx')
      · exact ih hts hx' ht'

lemma taskQuery_eq_true {t : Task} {tid : Int} {uid : String}
    (hid : t.id = tid) (hu : t.user_id = uid) : taskQuery tid uid t = true := by
  simp [taskQuery, hid, hu]

lemma unique_id_find? {l : List Task}
    (huniq : l.Pairwise (fun a b => a.id ≠ b.id)) {t : Task} (ht : t ∈ l)
    {tid : Int} {uid : String} (hid : t.id = tid) (hu : t.user_id = uid) :
    l.find? (taskQuery tid uid) = some t := by
  induction l with
  | nil => simp at ht
  | cons a ts ih =>
    rw [List.pairwise_cons] at huniq
    obtain ⟨ha, hts⟩ := huniq
    rcases List.mem_cons.mp ht with rfl | ht'
    · rw [List.find?_cons_of_pos _ (taskQuery_eq_true hid hu)]
    · have hne : a.id ≠ tid := by rw [← hid]; exact ha t ht'
      rw [List.find?_cons_of_neg _ (by simp [taskQuery, hne])]
      exact ih hts ht'

lemma unique_id_find?_none {l : List Task}
    (huniq : l.Pairwise (fun a b => a.id ≠ b.id)) {t : Task} (ht : t ∈ l)
    {tid : Int} {uidB : String} (hid : t.id = tid) (hu : t.user_id ≠ uidB) :
    l.find? (taskQuery tid uidB) = none := by
  rw [List.find?_eq_none]
  intro x hx hq
  simp only [taskQuery, Bool.and_eq_true, beq_iff_eq] at hq
  obtain ⟨hxid, hxuid⟩ := hq
  have hxt : x = t := eq_of_mem_unique_id huniq hx ht (by rw [hxid, hid])
  rw [hxt] at hxuid
  exact hu hxuid

lemma find?_none_of_no_id {l : List Task} {tid : Int} {uidB : String}
    (h : ∀ u ∈ l, u.id ≠ tid) : l.find? (taskQuery tid uidB) = none := by
  rw [List.find?_eq_none]
  intro x hx hq
  simp only [taskQuery, Bool.and_eq_true, beq_iff_eq] at hq
  exact h x hx hq.1

lemma validate_task_id_pos {tid : Int} (hpos : 1 ≤ tid) :
    validate_task_id tid = (true, none) := by
  rw [validate_task_id, if_neg (by omega)]

/-- C2.  Ownership isolation with existence hiding: with task ids unique
in the store, invoking complete_task, delete_task or update_task with
another user's id on a task owned by user A yields
`{success: false, error: "NotFoundError"}` with the task store left
unchanged, and the very same result is returned for a task id that does
not exist at all. -/
theorem ownership_isolation_not_found (db : TaskDB) (now : Nat)
    (uidA uidB : String) (tid : Int) (t : Task)
    (hmem : t ∈ db.tasks) (hid : t.id = tid) (howner : t.user_id = uidA)
    (hne : uidB ≠ uidA)
    (huniq : db.tasks.Pairwise (fun a b => a.id ≠ b.id)) (hpos : 1 ≤ tid) :
    (complete_task_handler db now uidB tid
        = (.err "NotFoundError" "Task not found or does not belong to user", db)
      ∧ delete_task_handler db uidB tid
        = (.err "NotFoundError" "Task not found or does not belong to user", db)
      ∧ ∀ title description completed,
          (validate_update_params tid title description completed).1 = true →
          update_task_handler db now uidB tid title description completed
            = (.err "NotFoundError" "Task not found or does not belong to user", db))
    ∧ ∀ db' : TaskDB, (∀ u ∈ db'.tasks, u.id ≠ tid) →
        complete_task_handler db' now uidB tid
          = (.err "NotFoundError" "Task not found or does not belong to user", db')
        ∧ delete_task_handler db' uidB tid
          = (.err "NotFoundError" "Task not found or does not belong to user", db')
        ∧ ∀ title description completed,
            (validate_update_params tid title description completed).1 = true →
            update_task_handler db' now uidB tid title description completed
              = (.err "NotFoundError" "Task not found or does not belong to user", db') := by
  have husr : t.user_id ≠ uidB := by rw [howner]; exact fun h => hne h.symm
  have hfind : db.tasks.find? (taskQuery tid uidB) = none :=
    unique_id_find?_none huniq hmem hid husr
  have hv := validate_task_id_pos hpos
  constructor
  · refine ⟨?_, ?_, ?_⟩
    · simp only [complete_task_handler, hv, hfind]
    · simp only [delete_task_handler, hv, hfind]
    · intro title description completed h1
      rcases hval : validate_update_params tid title description completed with ⟨b, m⟩
      rw [hval] at h1
      simp only at h1
      subst h1
      simp only [update_task_handler, hval, hfind]
  · intro db' hall
    have hfind' : db'.tasks.find? (taskQuery tid uidB) = none :=
      find?_none_of_no_id hall
    refine ⟨?_, ?_, ?_⟩
    · simp only [complete_task_handler, hv, hfind']
    · simp only [delete_task_handler, hv, hfind']
    · intro title description completed h1
      rcases hval : validate_update_params tid title description completed with ⟨b, m⟩
      rw [hval] at h1
      simp only at h1
      subst h1
      simp only [update_task_handler, hval, hfind']

/-- Instantiation of the isolation theorem: user u2 completing u1's
task 1 gets NotFoundError and the store is unchanged. -/
theorem ownership_isolation_not_found_witness :
    complete_task_handler ⟨[⟨1, "u1", "T", none, false, 0, 0⟩], 2⟩ 5 "u2" 1
      = (.err "NotFoundError" "Task not found or does not belong to user",
        ⟨[⟨1, "u1", "T", none, false, 0, 0⟩], 2⟩) :=
  ((ownership_isolation_not_found ⟨[⟨1, "u1", "T", none, false, 0, 0⟩], 2⟩ 5
      "u1" "u2" 1 ⟨1, "u1", "T", none, false, 0, 0⟩
      (by decide) rfl rfl (by decide) (by simp) (by decide)).1).1

/-- C7.  Idempotence of complete_task: completing an owned task always
succeeds, returns the task with `completed = true` and `updated_at` set
to the call time, whatever the prior completion state; a second call on
the same id succeeds again with `completed = true` and the new call
time. -/
theorem complete_task_idempotent (db : TaskDB) (now now' : Nat) (uid : String)
    (tid : Int) (t : Task)
    (hmem : t ∈ db.tasks) (hid : t.id = tid) (howner : t.user_id = uid)
    (huniq : db.tasks.Pairwise (fun a b => a.id ≠ b.id)) (hpos : 1 ≤ tid) :
    (complete_task_handler db now uid tid).1
        = .okTask {t with completed := true, updated_at := now}
    ∧ (complete_task_handler (complete_task_handler db now uid tid).2 now' uid tid).1
        = .okTask {t with completed := true, updated_at := now'} := by
  have hv := validate_task_id_pos hpos
  have hfind : db.tasks.find? (taskQuery tid uid) = some t :=
    unique_id_find? huniq hmem hid howner
  obtain ⟨l₁, l₂, hl, hfail, hp⟩ := find?_eq_some_decomp _ hfind
  have hfst : (complete_task_handler db now uid tid).1
      = .okTask {t with completed := true, updated_at := now} := by
    simp only [complete_task_handler, hv, hfind]
  have hsnd : (complete_task_handler db now uid tid).2
      = ⟨l₁ ++ {t with completed := true, updated_at := now} :: l₂, db.next_task_id⟩ := by
    simp only [complete_task_handler, hv, hfind]
    rw [hl, replaceFirstTask_append _ _ _ _ _ hfail hp]
  refine ⟨hfst, ?_⟩
  rw [hsnd]
  have hp' : taskQuery tid uid {t with completed := true, updated_at := now} = true := by
    cases t
    simp only [taskQuery, Bool.and_eq_true, beq_iff_eq] at hp ⊢
    exact hp
  have hfind2 : (l₁ ++ {t with completed := true, updated_at := now} :: l₂).find?
      (taskQuery tid uid) = some {t with completed := true, updated_at := now} :=
    find?_append_cons _ _ _ _ hfail hp'
  simp only [complete_task_handler, hv, hfind2]

/-- Instantiation of the idempotence theorem: completing task 1 twice
yields `completed = true` both times, with `updated_at` rebumped. -/
theorem complete_task_idempotent_witness :
    (complete_task_handler
        (complete_task_handler ⟨[⟨1, "u", "T", none, false, 0, 0⟩], 2⟩ 5 "u" 1).2
        6 "u" 1).1
      = .okTask ⟨1, "u", "T", none, true, 0, 6⟩ :=
  (complete_task_idempotent ⟨[⟨1, "u", "T", none, false, 0, 0⟩], 2⟩ 5 6 "u" 1
    ⟨1, "u", "T", none, false, 0, 0⟩ (by decide) rfl rfl (by simp) (by decide)).2

lemma applyTaskUpdate_id (a b : Option String) (c : Option Bool) (now : Nat)
    (u : Task) : (applyTaskUpdate a b c now u).id = u.id := by
  cases a <;> cases b <;> cases c <;> rfl

lemma applyTaskUpdate_user_id (a b : Option String) (c : Option Bool) (now : Nat)
    (u : Task) : (applyTaskUpdate a b c now u).user_id = u.user_id := by
  cases a <;> cases b <;> cases c <;> rfl

lemma applyTaskUpdate_created_at (a b : Option String) (c : Option Bool) (now : Nat)
    (u : Task) : (applyTaskUpdate a b c now u).created_at = u.created_at := by
  cases a <;> cases b <;> cases c <;> rfl

lemma applyTaskUpdate_updated_at (a b : Option String) (c : Option Bool) (now : Nat)
    (u : Task) : (applyTaskUpdate a b c now u).updated_at = now := by
  cases a <;> cases b <;> cases c <;> rfl

lemma update_task_handler_found (db : TaskDB) (now : Nat) (uid : String)
    (tid : Int) (t : Task) (title description : Option String)
    (completed : Option Bool)
    (hmem : t ∈ db.tasks) (hid : t.id = tid) (howner : t.user_id = uid)
    (huniq : db.tasks.Pairwise (fun a b => a.id ≠ b.id))
    (h1 : (validate_update_params tid title description completed).1 = true) :
    (update_task_handler db now uid tid title description completed).1
      = .okTask (applyTaskUpdate (title.map update_task.sanitize_input)
          (description.map update_task.sanitize_input) completed now t) := by
  have hfind : db.tasks.find? (taskQuery tid uid) = some t :=
    unique_id_find? huniq hmem hid howner
  rcases hval : validate_update_params tid title description completed with ⟨b, m⟩
  rw [hval] at h1
  simp only at h1
  subst h1
  simp only [update_task_handler, hval, hfind]

/-- C8.  Frame property of update_task: a successful update changes only
the provided fields — a description-only update keeps title and
completed, a completed-only update keeps title and description — while
id, user_id and created_at are never changed and updated_at is always
set to the call time. -/
theorem update_task_frame (db : TaskDB) (now : Nat) (uid : String)
    (tid : Int) (t : Task)
    (hmem : t ∈ db.tasks) (hid : t.id = tid) (howner : t.user_id = uid)
    (huniq : db.tasks.Pairwise (fun a b => a.id ≠ b.id)) (hpos : 1 ≤ tid) :
    (∀ d : String, (validate_update_params tid none (some d) none).1 = true →
        (update_task_handler db now uid tid none (some d) none).1
          = .okTask {t with
                      description := some (update_task.sanitize_input d),
                      updated_at := now})
    ∧ (∀ c : Bool, (update_task_handler db now uid tid none none (some c)).1
          = .okTask {t with completed := c, updated_at := now})
    ∧ ∀ title description completed,
        (validate_update_params tid title description completed).1 = true →
        ∃ t', (update_task_handler db now uid tid title description completed).1
            = .okTask t'
          ∧ t'.id = t.id ∧ t'.user_id = t.user_id ∧ t'.created_at = t.created_at
          ∧ t'.updated_at = now := by
  refine ⟨?_, ?_, ?_⟩
  · intro d h1
    rw [update_task_handler_found db now uid tid t none (some d) none
      hmem hid howner huniq h1]
    cases t
    rfl
  · intro c
    have h1 : (validate_update_params tid none none (some c)).1 = true := by
      rw [validate_update_params, if_neg (by omega)]
      simp [checkTitleOpt, checkDescriptionOpt]
    rw [update_task_handler_found db now uid tid t none none (some c)
      hmem hid howner huniq h1]
    cases t
    rfl
  · intro title description completed h1
    refine ⟨_, update_task_handler_found db now uid tid t title description completed
      hmem hid howner huniq h1, ?_, ?_, ?_, ?_⟩
    · exact applyTaskUpdate_id _ _ _ _ _
    · exact applyTaskUpdate_user_id _ _ _ _ _
    · exact applyTaskUpdate_created_at _ _ _ _ _
    · exact applyTaskUpdate_updated_at _ _ _ _ _

/-- Instantiation of the frame theorem: a description-only update leaves
title and completed untouched while bumping updated_at. -/
theorem update_task_frame_witness :
    (update_task_handler ⟨[⟨1, "u", "T", some "old", false, 0, 0⟩], 2⟩ 5 "u" 1
        none (some "new details") none).1
      = .okTask ⟨1, "u", "T", some "new details", false, 0, 5⟩ :=
  ((update_task_frame ⟨[⟨1, "u", "T", some "old", false, 0, 0⟩], 2⟩ 5 "u" 1
      ⟨1, "u", "T", some "old", false, 0, 0⟩ (by decide) rfl rfl (by simp)
      (by decide)).1 "new details" (by decide)).trans (by decide)

/-- The happy path of `add_task_handler` for a valid title: the checks
run on the trimmed raw title, and the stored title is its HTML-escaped
form. -/
lemma add_task_handler_ok (db : TaskDB) (now : Nat) (uid title : String)
    (h1 : pystrip title ≠ "") (h2 : (pystrip title).length ≤ 200)
    (h3 : (pystrip title).data.contains nullByte = false) :
    add_task_handler db now uid title none
      = (.okTask ⟨db.next_task_id, uid, error_handler.sanitize_input (pystrip title),
          none, false, now, now⟩,
        ⟨db.tasks ++ [⟨db.next_task_id, uid,
          error_handler.sanitize_input (pystrip title), none, false, now, now⟩],
          db.next_task_id + 1⟩) := by
  have hne : ¬ (title = "" ∨ pystrip title = "") := by
    rintro (rfl | h)
    · exact h1 rfl
    · exact h1 h
  rw [add_task_handler, if_neg hne]
  simp only [if_neg (by omega : ¬ (pystrip title).length > 200)]
  rw [if_neg (by rw [h3]; simp), addTaskDescription]

/-- The happy path of `add_task_handler` with a non-empty description:
both text fields are stored HTML-escaped. -/
lemma add_task_handler_ok_desc (db : TaskDB) (now : Nat) (uid title d : String)
    (h1 : pystrip title ≠ "") (h2 : (pystrip title).length ≤ 200)
    (h3 : (pystrip title).data.contains nullByte = false)
    (hd1 : d ≠ "") (hd2 : (pystrip d).length ≤ 1000)
    (hd3 : (pystrip d).data.contains nullByte = false) :
    add_task_handler db now uid title (some d)
      = (.okTask ⟨db.next_task_id, uid, error_handler.sanitize_input (pystrip title),
          some (error_handler.sanitize_input (pystrip d)), false, now, now⟩,
        ⟨db.tasks ++ [⟨db.next_task_id, uid,
          error_handler.sanitize_input (pystrip title),
          some (error_handler.sanitize_input (pystrip d)), false, now, now⟩],
          db.next_task_id + 1⟩) := by
  have hne : ¬ (title = "" ∨ pystrip title = "") := by
    rintro (rfl | h)
    · exact h1 rfl
    · exact h1 h
  rw [add_task_handler, if_neg hne]
  simp only [if_neg (by omega : ¬ (pystrip title).length > 200)]
  rw [if_neg (by rw [h3]; simp)]
  rw [show addTaskDescription (some d)
      = .ok (some (error_handler.sanitize_input (pystrip d))) from by
    simp only [addTaskDescription, if_neg hd1]
    simp only [if_neg (by omega : ¬ (pystrip d).length > 1000)]
    rw [if_neg (by rw [hd3]; simp)]]

/-- C10.  In add_task the title length and null-byte checks run on the
trimmed raw input, before HTML-escaping: every title whose trimmed form
is non-empty, at most 200 characters and null-byte-free passes
validation, and the stored title is the HTML-escaped trimmed input —
whose length may exceed 200 (witness: 200 ampersands stored as 1000
characters). -/
theorem add_task_title_bound_pre_escape (db : TaskDB) (now : Nat)
    (uid title : String)
    (h1 : pystrip title ≠ "") (h2 : (pystrip title).length ≤ 200)
    (h3 : (pystrip title).data.contains nullByte = false) :
    ∃ t db', add_task_handler db now uid title none = (.okTask t, db')
      ∧ t.title = error_handler.sanitize_input (pystrip title)
      ∧ db'.tasks = db.tasks ++ [t] :=
  ⟨_, _, add_task_handler_ok db now uid title h1 h2 h3, rfl, rfl⟩

/-- A title of 200 ampersands: within the 200-character input bound. -/
def ampTitle : String := String.mk (List.replicate 200 '&')

set_option maxRecDepth 8000 in
/-- Instantiation of the C10 theorem: 200 `&` characters pass the
length check yet are stored as 1000 characters of escaped text. -/
theorem add_task_title_bound_pre_escape_witness :
    (∃ t db', add_task_handler ⟨[], 1⟩ 0 "u" ampTitle none = (.okTask t, db')
      ∧ t.title = error_handler.sanitize_input (pystrip ampTitle)
      ∧ db'.tasks = ([] : List Task) ++ [t])
    ∧ ampTitle.length = 200
    ∧ (error_handler.sanitize_input (pystrip ampTitle)).length = 1000 := by
  refine ⟨add_task_title_bound_pre_escape ⟨[], 1⟩ 0 "u" ampTitle
    (by decide) (by decide) (by decide), by decide, by decide⟩

/-- C4 counterexample.  update_task does not HTML-escape: the title
`<script>alert(1)</script>` is stored verbatim by a successful update
(and differs from its HTML-escaped form), and a title with an embedded
null byte is rejected with ValidationError rather than being stripped. -/
theorem update_task_sanitize_counterexample :
    ((update_task_handler ⟨[⟨1, "u1", "old", none, false, 0, 0⟩], 2⟩ 5 "u1" 1
        (some "<script>alert(1)</script>") none none).1
      = .okTask ⟨1, "u1", "<script>alert(1)</script>", none, false, 0, 5⟩)
    ∧ "<script>alert(1)</script>"
        ≠ error_handler.sanitize_input "<script>alert(1)</script>"
    ∧ (update_task_handler ⟨[⟨1, "u1", "old", none, false, 0, 0⟩], 2⟩ 5 "u1" 1
        (some (String.mk ['a', nullByte, 'b'])) none none).1
      = .err "ValidationError" "Title contains invalid characters" := by
  refine ⟨by decide, by decide, by decide⟩

/-- C4 as amended.  Creation via add_task stores title and description
HTML-escaped; update_task sanitizes only by stripping null bytes and
surrounding whitespace, storing HTML content verbatim; an embedded null
byte yields ValidationError at creation and also at update (update
validation rejects it before the sanitizer could strip it). -/
theorem sanitization_amended (db : TaskDB) (now : Nat) (uid : String) :
    (∀ title, pystrip title ≠ "" → (pystrip title).length ≤ 200 →
      (pystrip title).data.contains nullByte = false →
      ∃ t db', add_task_handler db now uid title none = (.okTask t, db')
        ∧ t.title = error_handler.sanitize_input (pystrip title))
    ∧ (∀ title d, pystrip title ≠ "" → (pystrip title).length ≤ 200 →
        (pystrip title).data.contains nullByte = false →
        d ≠ "" → (pystrip d).length ≤ 1000 →
        (pystrip d).data.contains nullByte = false →
        ∃ t db', add_task_handler db now uid title (some d) = (.okTask t, db')
          ∧ t.description = some (error_handler.sanitize_input (pystrip d)))
    ∧ (∀ tid t title, t ∈ db.tasks → t.id = tid → t.user_id = uid →
        db.tasks.Pairwise (fun a b => a.id ≠ b.id) →
        (validate_update_params tid (some title) none none).1 = true →
        ∃ t', (update_task_handler db now uid tid (some title) none none).1
            = .okTask t'
          ∧ t'.title = update_task.sanitize_input title)
    ∧ (∀ title, (pystrip title).data.contains nullByte = true →
        pystrip title ≠ "" → (pystrip title).length ≤ 200 →
        add_task_handler db now uid title none
          = (.err "ValidationError" "Title contains invalid characters", db))
    ∧ (∀ tid title, 1 ≤ tid → title ≠ "" → pystrip title ≠ "" →
        title.length ≤ 200 → title.data.contains nullByte = true →
        update_task_handler db now uid tid (some title) none none
          = (.err "ValidationError" "Title contains invalid characters", db)) := by
  refine ⟨?_, ?_, ?_, ?_, ?_⟩
  · intro title h1 h2 h3
    exact ⟨_, _, add_task_handler_ok db now uid title h1 h2 h3, rfl⟩
  · intro title d h1 h2 h3 hd1 hd2 hd3
    exact ⟨_, _, add_task_handler_ok_desc db now uid title d h1 h2 h3 hd1 hd2 hd3, rfl⟩
  · intro tid t title hmem hid howner huniq h1
    exact ⟨_, update_task_handler_found db now uid tid t (some title) none none
      hmem hid howner huniq h1, by cases t; rfl⟩
  · intro title h0 h1 h2
    have hne : ¬ (title = "" ∨ pystrip title = "") := by
      rintro (rfl | h)
      · exact h1 rfl
      · exact h1 h
    rw [add_task_handler, if_neg hne]
    simp only [if_neg (by omega : ¬ (pystrip title).length > 200)]
    rw [if_pos h0]
  · intro tid title htid ht0 ht1 ht2 ht3
    have hval : validate_update_params tid (some title) none none
        = (false, some "Title contains invalid characters") := by
      rw [validate_update_params, if_neg (by omega), if_neg (by simp)]
      rw [show checkTitleOpt (some title) = some "Title contains invalid characters"
        from by
          rw [checkTitleOpt, if_neg (fun hor => hor.elim ht0 ht1)]
          simp only [if_neg (by omega : ¬ title.length > 200)]
          rw [if_pos ht3]]
    simp only [update_task_handler, hval]
    rfl

/-- Instantiation of the amended sanitization theorem: creating a task
titled `<b>hi</b>` stores the HTML-escaped title. -/
theorem sanitization_amended_witness :
    ∃ t db', add_task_handler ⟨[], 1⟩ 0 "u" "<b>hi</b>" none = (.okTask t, db')
      ∧ t.title = error_handler.sanitize_input (pystrip "<b>hi</b>") :=
  (sanitization_amended ⟨[], 1⟩ 0 "u").1 "<b>hi</b>" (by decide) (by decide) (by decide)

/-! ## Agent orchestrator -/

/-- The top choice of a chat completion: stop condition, message
content, and any requested tool calls. -/
structure Completion where
  finish_reason : String
  content : Option String
  tool_calls : List RawToolCall
deriving Repr, DecidableEq

/-- The exceptions the completion client can raise, as caught by
`process_message` in order: RateLimitError, AuthenticationError,
APIConnectionError, APIError (with an optional HTTP status code),
other OpenAIError, and any other exception. -/
inductive EngineError where
  | rateLimit (msg : String)
  | authentication (msg : String)
  | apiConnection (msg : String)
  | api (status_code : Option Int) (msg : String)
  | openai (msg : String)
  | unexpected (msg : String)
deriving Repr, DecidableEq

/-- The completion engine (`client.chat.completions.create`) as an
oracle: from the message list and the optional tool schemas (identified
by name; `none` means the parameter was omitted) to the top completion
choice or a raised error. -/
abbrev Engine := List ChatMsg → Option (List String) → Except EngineError Completion

/-- The structured `error` entry of a degraded-success agent result. -/
structure ErrorInfo where
  type : String
  message : String
  user_message : String
deriving Repr, DecidableEq

/-- The dict `process_message` returns: `response`, `finish_reason`,
optional `tool_calls` (empty list when the key is absent) and optional
`error`. -/
structure AgentResult where
  response : Option String
  finish_reason : String
  tool_calls : List RawToolCall
  error : Option ErrorInfo
deriving Repr, DecidableEq

/-- The fixed system prompt (`app.agent.system_prompt`).  The prompt is
instruction prose consumed only by the engine oracle; the constant
carries its opening sentence as a stand-in for the full text. -/
def get_system_prompt : String :=
  "You are a helpful task management assistant that helps users manage their todo list through natural conversation."

/-- `AgentOrchestrator.format_messages`: system prompt first, then the
history in order, then the new message as the final user entry. -/
def format_messages (conversation_history : List ChatMsg)
    (current_message : String) : List ChatMsg :=
  ⟨"system", get_system_prompt, []⟩ ::
    (conversation_history ++ [⟨"user", current_message, []⟩])

/-- The except blocks of `process_message`: each caught provider error
becomes a degraded success with `finish_reason = "error"`, a fixed
apology response, and a structured classified error. -/
def degradedResult : EngineError → AgentResult
  | .rateLimit _ =>
      ⟨some "I\x27m experiencing high demand right now. Please try again in a moment.",
        "error", [],
        some ⟨"RateLimitError", "OpenAI API rate limit exceeded",
          "I\x27m experiencing high demand right now. Please try again in a moment."⟩⟩
  | .authentication _ =>
      ⟨some "I\x27m temporarily unavailable due to a configuration issue. Please contact support.",
        "error", [],
        some ⟨"AuthenticationError", "Invalid OpenAI API key",
          "Service configuration error. Please contact support."⟩⟩
  | .apiConnection _ =>
      ⟨some "I\x27m having trouble connecting to my AI services. Please try again in a moment.",
        "error", [],
        some ⟨"ConnectionError", "Failed to connect to OpenAI API",
          "Connection error. Please try again shortly."⟩⟩
  | .api status msg =>
      if status = some 503 then
        ⟨some "I\x27m temporarily unavailable. Please try again shortly.",
          "error", [],
          some ⟨"ServiceUnavailable", "OpenAI service temporarily unavailable",
            "Service temporarily unavailable. Please try again in a few minutes."⟩⟩
      else
        ⟨some "I encountered an error processing your request. Please try again or rephrase your message.",
          "error", [],
          some ⟨"APIError", "OpenAI API error: " ++ msg,
            "An error occurred. Please try again."⟩⟩
  | .openai msg =>
      ⟨some "I encountered an unexpected error. Please try again.",
        "error", [],
        some ⟨"OpenAIError", "OpenAI error: " ++ msg,
          "An unexpected error occurred. Please try again."⟩⟩
  | .unexpected msg =>
      ⟨some "I encountered an unexpected error. Please try again.",
        "error", [],
        some ⟨"UnexpectedError", "Unexpected error: " ++ msg,
          "An unexpected error occurred. Please try again."⟩⟩

/-- `AgentOrchestrator.process_message`: format the messages, call the
engine (tool schemas omitted entirely when the list is empty), and
either extract the choice (tool calls when `finish_reason` is
`tool_calls` and the list is non-empty, plain content otherwise) or
absorb the raised error into a degraded success.  The function is
total: no engine failure escapes. -/
def process_message (create : Engine) (user_id message : String)
    (conversation_history : List ChatMsg := [])
    (tools : List String := []) : AgentResult :=
  let messages := format_messages conversation_history message
  match create messages (if tools.isEmpty then none else some tools) with
  | .ok response =>
    if response.finish_reason = "tool_calls" ∧ response.tool_calls ≠ [] then
      ⟨some (response.content.getD ""), response.finish_reason,
        response.tool_calls, none⟩
    else
      ⟨response.content, response.finish_reason, [], none⟩
  | .error e => degradedResult e

/-- On a failing engine call, `process_message` returns exactly the
degraded-success payload of the caught error. -/
lemma process_message_error (create : Engine) (uid msg : String)
    (history : List ChatMsg) (tools : List String) (e : EngineError)
    (hcall : create (format_messages history msg)
      (if tools.isEmpty then none else some tools) = .error e) :
    process_message create uid msg history tools = degradedResult e := by
  simp only [process_message]
  split
  · rename_i r heq
    rw [heq] at hcall
    cases hcall
  · rename_i e2 heq
    rw [heq] at hcall
    injection hcall with he
    rw [he]

/-- C3.  Degraded success on provider failure: `process_message` is a
total function (no engine failure is re-raised), and whenever the
engine call fails — rate limit, authentication, connection,
service-unavailable (APIError with status 503), other API error, other
OpenAI error, or unexpected exception — the returned value has
`finish_reason = "error"`, a non-empty user-safe apology in `response`,
and a structured `error.type` classifying that failure. -/
theorem process_message_degraded_success (create : Engine) (uid msg : String)
    (history : List ChatMsg) (tools : List String) (e : EngineError)
    (hcall : create (format_messages history msg)
      (if tools.isEmpty then none else some tools) = .error e) :
    (process_message create uid msg history tools).finish_reason = "error"
    ∧ (∃ s, (process_message create uid msg history tools).response = some s ∧ s ≠ "")
    ∧ ∃ info, (process_message create uid msg history tools).error = some info
        ∧ info.type = (match e with
            | .rateLimit _ => "RateLimitError"
            | .authentication _ => "AuthenticationError"
            | .apiConnection _ => "ConnectionError"
            | .api status _ =>
                if status = some 503 then "ServiceUnavailable" else "APIError"
            | .openai _ => "OpenAIError"
            | .unexpected _ => "UnexpectedError") := by
  rw [process_message_error create uid msg history tools e hcall]
  cases e with
  | rateLimit m => simp [degradedResult]
  | authentication m => simp [degradedResult]
  | apiConnection m => simp [degradedResult]
  | api status m =>
    by_cases h503 : status = some 503
    · simp [degradedResult, h503]
    · simp [degradedResult, h503]
  | openai m => simp [degradedResult]
  | unexpected m => simp [degradedResult]

/-- Instantiation of the degraded-success theorem on an engine that
always raises RateLimitError. -/
theorem process_message_degraded_success_witness :
    (process_message (fun _ _ => .error (.rateLimit "limit")) "u" "Hi" [] []).finish_reason
        = "error"
    ∧ (∃ s, (process_message (fun _ _ => .error (.rateLimit "limit")) "u" "Hi" [] []).response
        = some s ∧ s ≠ "")
    ∧ ∃ info, (process_message (fun _ _ => .error (.rateLimit "limit")) "u" "Hi" [] []).error
        = some info ∧ info.type = "RateLimitError" :=
  process_message_degraded_success (fun _ _ => .error (.rateLimit "limit"))
    "u" "Hi" [] [] (.rateLimit "limit") rfl

/-! ## Turn controller (the chat endpoint) -/

/-- One entry of the `tool_results` list collected by the dispatch
loop: `{"tool": name, "result": result}` for an executed call, or
`{"tool": name, "error": str(e)}` when argument parsing or dispatch
raised. -/
inductive ToolEntry where
  | result (tool : String) (result : ToolResult)
  | error (tool : String) (message : String)
deriving Repr, DecidableEq

/-- `get_available_tools` (mcp.server): the five registered schemas,
identified here by name. -/
def get_available_tools : List String :=
  ["add_task", "list_tasks", "complete_task", "delete_task", "update_task"]

/-- One iteration of the chat dispatch loop: parse the arguments
(failure appends an error entry), inject the authenticated `user_id`,
dispatch by tool name to the matching handler, append an error entry on
a dispatch failure (argument mismatch), and silently skip an unknown
tool name (only a warning is logged, nothing is appended). -/
def dispatch_tool_call (tdb : TaskDB) (now : Nat) (user_id : String)
    (tc : RawToolCall) : Option ToolEntry × TaskDB :=
  match tc.arguments with
  | .malformed emsg => (some (.error tc.name emsg), tdb)
  | .parsed args =>
    match tc.name, args with
    | "add_task", .addTask title description =>
      let r := add_task_handler tdb now user_id title description
      (some (.result "add_task" r.1), r.2)
    | "list_tasks", .listTasks f l o =>
      (some (.result "list_tasks"
        (list_tasks_handler tdb user_id (f.getD "all") (l.getD 50) (o.getD 0))), tdb)
    | "complete_task", .completeTask tid =>
      let r := complete_task_handler tdb now user_id tid
      (some (.result "complete_task" r.1), r.2)
    | "delete_task", .deleteTask tid =>
      let r := delete_task_handler tdb user_id tid
      (some (.result "delete_task" r.1), r.2)
    | "update_task", .updateTask tid title description completed =>
      let r := update_task_handler tdb now user_id tid title description completed
      (some (.result "update_task" r.1), r.2)
    | name, _ =>
      if name ∈ get_available_tools then
        (some (.error name "tool argument mismatch"), tdb)
      else (none, tdb)

/-- The chat dispatch loop over all requested tool calls: one tool
failure does not abort the others. -/
def run_tool_calls (now : Nat) (user_id : String) :
    List RawToolCall → TaskDB → List ToolEntry × TaskDB
  | [], tdb => ([], tdb)
  | tc :: rest, tdb =>
    let step := dispatch_tool_call tdb now user_id tc
    let next := run_tool_calls now user_id rest step.2
    ((match step.1 with | some e => e :: next.1 | none => next.1), next.2)

/-- `json.dumps(tool_results)`: an opaque deterministic serialization
consumed only by the engine oracle. -/
def serialize_tool_results (entries : List ToolEntry) : String := reprStr entries

/-- The request body of the chat endpoint. -/
structure ChatRequest where
  message : String
  conversation_id : Option Nat
deriving Repr, DecidableEq

/-- The response body of the chat endpoint; `tool_calls` is `none` when
the turn executed no tools. -/
structure ChatResponse where
  conversation_id : Nat
  response : String
  tool_calls : Option (List ToolEntry)
  created_at : Nat
deriving Repr, DecidableEq

/-- The HTTP error outcomes of the chat handler. -/
inductive ChatErr where
  | forbidden
  | badRequest (message : String)
  | notFound (message : String)
  | internal (message : String)
deriving Repr, DecidableEq

/-- Step 1 of the chat handler: use the supplied conversation after an
ownership check (a `ValueError` surfaces as 404), or create a fresh one
when the id is absent — or falsy, since `if request.conversation_id:`
treats 0 as absent. -/
def resolve_conversation (cdb : ConvDB) (user_id : String)
    (conversation_id : Option Nat) (now : Nat) : Except ChatErr (Nat × ConvDB) :=
  match conversation_id with
  | some cid =>
    if cid ≠ 0 then
      match get_conversation cdb cid user_id with
      | .error (.notFound _) => .error (.notFound "Conversation not found")
      | .error _ => .error (.notFound "Unauthorized access to conversation")
      | .ok conv => .ok (conv.id, cdb)
    else
      let c := create_conversation cdb user_id now
      .ok (c.1.id, c.2)
  | none =>
    let c := create_conversation cdb user_id now
    .ok (c.1.id, c.2)

/-- Step 6 of the chat handler: the final reply is the first agent
response, except that when tools ran and the first response was falsy
(absent or empty) a second completion call is made over a history
extended with the user message, a synthetic assistant entry carrying
the tool calls, and a tool-role entry carrying the serialized results,
with no tools permitted; the reply is then that call's response.  (The
`"response"` key is always present in an agent result, so the
`.get` defaults of the source are dead; `process_message` is total, so
the surrounding `except` is dead too.) -/
def final_response_of (create : Engine) (user_id : String)
    (history : List ChatMsg) (message : String) (ar : AgentResult)
    (tool_results : List ToolEntry) : Option String :=
  if tool_results ≠ [] ∧ (ar.response = none ∨ ar.response = some "") then
    let tool_messages := history ++
      [⟨"user", message, []⟩,
        ⟨"assistant", "", ar.tool_calls⟩,
        ⟨"tool", serialize_tool_results tool_results, []⟩]
    (process_message create user_id "" tool_messages []).response
  else ar.response

/-- The chat endpoint handler: user check, message validation, resolve
or create the conversation, assemble history, first completion with
tool schemas, dispatch any requested tools, compute the final reply
(second completion if needed), persist the user message then the
assistant reply in one try block whose failure is only logged, and
return the response built from the already-computed reply. -/
def chat (create : Engine) (cdb : ConvDB) (tdb : TaskDB)
    (user_id current_user_id : String) (req : ChatRequest) (now : Nat) :
    Except ChatErr (ChatResponse × ConvDB × TaskDB) :=
  if user_id ≠ current_user_id then .error .forbidden
  else if req.message = "" ∨ pystrip req.message = "" then
    .error (.badRequest "Message cannot be empty")
  else if req.message.length > 10000 then
    .error (.badRequest "Message must be 10,000 characters or less")
  else
    match resolve_conversation cdb user_id req.conversation_id now with
    | .error e => .error e
    | .ok (conversation_id, cdb1) =>
      match get_conversation_history cdb1 conversation_id user_id with
      | .error _ => .error (.notFound "Conversation not found")
      | .ok history =>
        let tools := get_available_tools
        let agent_result := process_message create user_id req.message history tools
        let run := run_tool_calls now user_id agent_result.tool_calls tdb
        match final_response_of create user_id history req.message agent_result run.1 with
        | none => .error (.internal "response validation failed")
        | some final_response =>
          let cdb2 :=
            match store_message cdb1 conversation_id user_id "user" req.message now with
            | .error _ => cdb1
            | .ok p1 =>
              match store_message p1.2 conversation_id user_id "assistant"
                  final_response now with
              | .error _ => p1.2
              | .ok p2 => p2.2
          .ok (⟨conversation_id, final_response,
              (if run.1 = [] then none else some run.1), now⟩,
            cdb2, run.2)

lemma store_message_ok_shape {db : ConvDB} {cid : Nat} {uid role content : String}
    {now : Nat} {m : Message} {db' : ConvDB}
    (h : store_message db cid uid role content now = .ok (m, db')) :
    m = ⟨cid, uid, role, content, now⟩ ∧ db'.messages = db.messages ++ [m] := by
  cases hfind : db.conversations.find? (fun c => c.id == cid) with
  | none => simp [store_message, hfind] at h
  | some conv =>
    by_cases howner : conv.user_id ≠ uid
    · simp [store_message, hfind, howner] at h
    · by_cases hrole : role = "user" ∨ role = "assistant"
      · by_cases hcontent : content = "" ∨ content.length > 10000
        · simp [store_message, hfind, howner, hrole, hcontent] at h
        · simp only [store_message, hfind, if_neg howner, if_neg (not_not.mpr hrole),
            if_neg hcontent, Except.ok.injEq, Prod.mk.injEq] at h
          obtain ⟨hm, hdb⟩ := h
          refine ⟨hm.symm, ?_⟩
          rw [← hdb, ← hm]
      · simp [store_message, hfind, howner, hrole] at h

/-- C9.  Turn persistence: once the turn reaches the persistence step,
the chat handler returns the already-computed reply whatever the store
outcome; the persistence step attempts exactly the two turn messages —
the inbound user message, then the final assistant reply, regardless of
how many tool calls ran — so the stored log grows by exactly those two
messages when both stores succeed, by only the user message when the
assistant store fails, and not at all when the user store fails. -/
theorem chat_persists_two_messages (create : Engine) (cdb : ConvDB)
    (tdb : TaskDB) (uid : String) (req : ChatRequest) (now : Nat)
    (cid : Nat) (cdb1 : ConvDB) (history : List ChatMsg) (f : String)
    (hm0 : req.message ≠ "") (hm1 : pystrip req.message ≠ "")
    (hm2 : req.message.length ≤ 10000)
    (hres : resolve_conversation cdb uid req.conversation_id now = .ok (cid, cdb1))
    (hhist : get_conversation_history cdb1 cid uid = .ok history)
    (hfinal : final_response_of create uid history req.message
        (process_message create uid req.message history get_available_tools)
        (run_tool_calls now uid
          (process_message create uid req.message history get_available_tools).tool_calls
          tdb).1
      = some f) :
    ∃ cdb2 : ConvDB,
      chat create cdb tdb uid uid req now
        = .ok (⟨cid, f,
            (if (run_tool_calls now uid
                (process_message create uid req.message history
                  get_available_tools).tool_calls tdb).1 = []
              then none
              else some (run_tool_calls now uid
                (process_message create uid req.message history
                  get_available_tools).tool_calls tdb).1), now⟩,
          cdb2,
          (run_tool_calls now uid
            (process_message create uid req.message history
              get_available_tools).tool_calls tdb).2)
      ∧ (cdb2.messages = cdb1.messages
          ∨ cdb2.messages = cdb1.messages ++ [⟨cid, uid, "user", req.message, now⟩]
          ∨ cdb2.messages = cdb1.messages
              ++ [⟨cid, uid, "user", req.message, now⟩,
                  ⟨cid, uid, "assistant", f, now⟩])
      ∧ (∀ mu cdbU, store_message cdb1 cid uid "user" req.message now = .ok (mu, cdbU) →
          (∀ e, store_message cdbU cid uid "assistant" f now = .error e →
            cdb2.messages = cdb1.messages ++ [⟨cid, uid, "user", req.message, now⟩])
          ∧ ∀ ma cdbA, store_message cdbU cid uid "assistant" f now = .ok (ma, cdbA) →
            cdb2.messages = cdb1.messages
              ++ [⟨cid, uid, "user", req.message, now⟩,
                  ⟨cid, uid, "assistant", f, now⟩])
      ∧ (∀ e, store_message cdb1 cid uid "user" req.message now = .error e →
          cdb2.messages = cdb1.messages) := by
  have hcond1 : ¬ (uid ≠ uid) := by simp
  have hcond2 : ¬ (req.message = "" ∨ pystrip req.message = "") := by
    rintro (h | h)
    · exact hm0 h
    · exact hm1 h
  have hcond3 : ¬ (req.message.length > 10000) := by omega
  refine ⟨(match store_message cdb1 cid uid "user" req.message now with
      | .error _ => cdb1
      | .ok p1 =>
        match store_message p1.2 cid uid "assistant" f now with
        | .error _ => p1.2
        | .ok p2 => p2.2), ?_, ?_, ?_, ?_⟩
  · simp only [chat, if_neg hcond1, if_neg hcond2, if_neg hcond3, hres, hhist, hfinal]
  · cases hs1 : store_message cdb1 cid uid "user" req.message now with
    | error e1 => exact Or.inl (by simp [hs1])
    | ok p1 =>
      obtain ⟨hmu, hmsgs1⟩ := store_message_ok_shape hs1
      cases hs2 : store_message p1.2 cid uid "assistant" f now with
      | error e2 =>
        exact Or.inr (Or.inl (by simp [hs1, hs2, hmsgs1, hmu]))
      | ok p2 =>
        obtain ⟨hma, hmsgs2⟩ := store_message_ok_shape hs2
        exact Or.inr (Or.inr (by simp [hs1, hs2, hmsgs2, hmsgs1, hmu, hma]))
  · intro mu cdbU hok1
    obtain ⟨hmu, hmsgs1⟩ := store_message_ok_shape hok1
    constructor
    · intro e he
      simp [hok1, he, hmsgs1, hmu]
    · intro ma cdbA hok2
      obtain ⟨hma, hmsgs2⟩ := store_message_ok_shape hok2
      simp [hok1, hok2, hmsgs2, hmsgs1, hmu, hma]
  · intro e he
    simp [he]

/-- Instantiation of the turn-persistence theorem: a plain no-tool turn
on a fresh conversation returns the computed reply. -/
theorem chat_persists_two_messages_witness :
    ∃ cdb2, chat (fun _ _ => .ok ⟨"stop", some "Hello!", []⟩) ⟨[], [], 1⟩ ⟨[], 1⟩
        "u" "u" ⟨"Hi", none⟩ 5
      = .ok (⟨1, "Hello!", none, 5⟩, cdb2, ⟨[], 1⟩) := by
  obtain ⟨cdb2, hchat, _, _, _⟩ :=
    chat_persists_two_messages (fun _ _ => .ok ⟨"stop", some "Hello!", []⟩)
      ⟨[], [], 1⟩ ⟨[], 1⟩ "u" ⟨"Hi", none⟩ 5 1 ⟨[⟨1, "u", 5, 5⟩], [], 2⟩ [] "Hello!"
      (by decide) (by decide) (by decide) rfl rfl rfl
  exact ⟨cdb2, hchat⟩

end Todo
